import Mathlib

/-!
Verification of the BOMBARDIER ml-service analyzers
(`src/backend/ml-service/src/analyzers/`): a shallow embedding of
`bot_detector.py`, `sentiment_analyzer.py`, `interest_extractor.py` and
`profile_scorer.py`, followed by theorems settling the frozen claims.

Modelling conventions:
* Python strings are `List Char`; `str.lower` is `List.map Char.toLower`
  (ASCII model of Python's Unicode case folding, adequate for the fixed
  ASCII lexicons and the concrete inputs used below).
* Python floats are modelled as exact rationals `ℚ`; `round(x, n)` is
  modelled as round-half-to-even on the rational value (`pyRound`).
* Python dict lookups with defaults (`d.get(k, v)`) are modelled by
  `Option` fields read through `Option.getD`.
* Division sites in `bot_detector.py` are modelled by the fallible
  `div?`, so that a division by zero would surface as `none`; the
  claims include the statement that `none` is unreachable.
-/

namespace Bombardier

/-- Round half to even of a rational to an integer, the rounding mode of
Python's built-in `round` (modelled on exact rationals). -/
def rhe (q : ℚ) : ℤ :=
  if q - ⌊q⌋ = 1/2 then (if ⌊q⌋ % 2 = 0 then ⌊q⌋ else ⌊q⌋ + 1) else ⌊q + 1/2⌋

/-- Python's `round(q, n)` on the exact rational value. -/
def pyRound (q : ℚ) (n : ℕ) : ℚ :=
  (rhe (q * 10 ^ n) : ℚ) / 10 ^ n

/-- Guarded division: `none` exactly when the denominator is zero,
modelling Python's `ZeroDivisionError` as a fallible operation. -/
def div? (a b : ℚ) : Option ℚ :=
  if b = 0 then none else some (a / b)

/-- Lowercasing a Python string (`str.lower`, ASCII model). -/
def toLowerL (s : List Char) : List Char := s.map Char.toLower

/-- Word characters of the regex class `\w` (ASCII model: alphanumerics
and underscore). -/
def isWordChar (c : Char) : Bool := c.isAlphanum || c = '_'

/-- Python's substring test `pat in s`: some suffix of `s` starts with
`pat`. -/
def hasSub (pat s : List Char) : Bool :=
  (List.range (s.length + 1)).any fun i => pat.isPrefixOf (s.drop i)

/-- Accumulator pass for `splitWords`: `cur` is the reversed current run
of word characters. -/
def splitWordsAux : List Char → List Char → List (List Char)
  | [], cur => if cur.isEmpty then [] else [cur.reverse]
  | c :: rest, cur =>
    if isWordChar c then splitWordsAux rest (c :: cur)
    else if cur.isEmpty then splitWordsAux rest []
    else cur.reverse :: splitWordsAux rest []

/-- The token list of `re.findall` with pattern `\b\w+\b`: the maximal runs of
word characters of `s`. -/
def splitWords (s : List Char) : List (List Char) := splitWordsAux s []

/-- Accumulator pass for `wsSplit`. -/
def wsSplitAux : List Char → List Char → List (List Char)
  | [], cur => if cur.isEmpty then [] else [cur.reverse]
  | c :: rest, cur =>
    if c.isWhitespace then
      (if cur.isEmpty then wsSplitAux rest [] else cur.reverse :: wsSplitAux rest [])
    else wsSplitAux rest (c :: cur)

/-- Python's `s.split()` with no argument: maximal runs of
non-whitespace characters. -/
def wsSplit (s : List Char) : List (List Char) := wsSplitAux s []

/-- Python's `s.strip()`: drop whitespace from both ends. -/
def pyStrip (s : List Char) : List Char :=
  ((s.dropWhile Char.isWhitespace).reverse.dropWhile Char.isWhitespace).reverse

end Bombardier

namespace Bombardier.BotDetector

/-- Decides `re.search` of the first `BOT_USERNAME_PATTERNS` entry,
`\d{6,}$`, on the lowercased username: the string ends in at least six
digits. Each matcher below decides one entry of the fixed pattern list,
evaluated on the lowercased username (modelling `re.IGNORECASE`). -/
def patDigits6 (u : List Char) : Bool :=
  6 ≤ u.length && (u.drop (u.length - 6)).all Char.isDigit

/-- Decides `re.search` of `^[a-z]{3,5}\d{4,}` (on the lowercased
username): 3 to 5 leading letters immediately followed by 4 digits. -/
def patLettersDigits (u : List Char) : Bool :=
  [3, 4, 5].any fun k =>
    k + 4 ≤ u.length && (u.take k).all Char.isLower && ((u.drop k).take 4).all Char.isDigit

/-- Decides `re.search` of `bot$`. -/
def patBotSuffix (u : List Char) : Bool := "bot".toList.isSuffixOf u

/-- Decides `re.search` of `^user\d+`. -/
def patUserDigits (u : List Char) : Bool :=
  "user".toList.isPrefixOf u && ((u.drop 4).headD ' ').isDigit

/-- Matching `[a-z]{1,3}\d+[a-z]{1,3}\d+` at the start of `l`: some
split into 1–3 letters, then at least one digit, then 1–3 letters, then
at least one digit. -/
def patAltAt (l : List Char) : Bool :=
  [1, 2, 3].any fun a =>
    a ≤ l.length && (l.take a).all Char.isLower &&
      ((List.range (l.length - a)).map (· + 1)).any fun b =>
        let m := l.drop a
        b ≤ m.length && (m.take b).all Char.isDigit &&
          [1, 2, 3].any fun c =>
            c ≤ (m.drop b).length && ((m.drop b).take c).all Char.isLower &&
              (((m.drop b).drop c).headD ' ').isDigit

/-- Decides `re.search` of `[a-z]{1,3}\d+[a-z]{1,3}\d+`: some suffix
matches at its start. -/
def patAlt (u : List Char) : Bool := u.tails.any patAltAt

/-- The list of username pattern matchers, in source order. -/
def usernameMatchers : List (List Char → Bool) :=
  [patDigits6, patLettersDigits, patBotSuffix, patUserDigits, patAlt]

end Bombardier.BotDetector

namespace Bombardier.BotDetector

open Bombardier

/-- The `SPAM_BIO_PHRASES` table. -/
def SPAM_BIO_PHRASES : List (List Char) :=
  ["follow back", "f4f", "follow for follow", "dm for promo",
   "link in bio", "check link", "free followers", "get followers",
   "grow your", "make money", "work from home", "earn $",
   "click here", "limited time", "act now", "special offer"].map String.toList

/-- The `GENERIC_BIOS` table. -/
def GENERIC_BIOS : List (List Char) :=
  ["just here", "living life", "lover of life", "follow me",
   "entrepreneur", "influencer", "content creator", "dreamer"].map String.toList

/-- The promotional keywords of `_analyze_content`. -/
def promoPhrases : List (List Char) :=
  ["buy", "sale", "discount", "link", "shop", "promo"].map String.toList

/-- Number of occurrences of the regex `https?://` in `s`. Matches of
this pattern can never overlap (no `h` occurs past the first position of
a match), so `len(re.findall(...))` equals the number of positions where
the pattern matches. -/
def urlCount (s : List Char) : ℕ :=
  (List.range s.length).countP fun i =>
    "http://".toList.isPrefixOf (s.drop i) || "https://".toList.isPrefixOf (s.drop i)

/-- Scan for `re.findall` with pattern `#\w+`: `run` is `some` of the reversed
word-character run of a candidate hashtag currently being read. -/
def hashtagsAux : List Char → Option (List Char) → List (List Char)
  | [], some r => if r.isEmpty then [] else ['#' :: r.reverse]
  | [], none => []
  | c :: rest, some r =>
    if isWordChar c then hashtagsAux rest (some (c :: r))
    else
      (if r.isEmpty then [] else ['#' :: r.reverse]) ++
        hashtagsAux rest (if c = '#' then some [] else none)
  | c :: rest, none =>
    if c = '#' then hashtagsAux rest (some []) else hashtagsAux rest none

/-- The hashtag tokens of `re.findall` with pattern `#\w+`. -/
def extractHashtags (s : List Char) : List (List Char) := hashtagsAux s none

/-- The `metadata` dict of a profile: the four keys read by
`_analyze_metrics`, with the source's defaults standing in for absent
keys. -/
structure Metadata where
  followers : ℕ
  following : ℕ
  posts_count : ℕ
  verified : Bool
deriving DecidableEq

/-- A parsed `datetime.fromisoformat` value, modelled post-parse:
`instant` is the point on the time line used by sorting and
`total_seconds` differences, `hour` is the wall-clock `.hour` field.
The ISO-8601 string parser itself is not modelled; a post whose
`timestamp` is missing or unparsable carries `none` (the silently
dropped case of the source). -/
structure PyDatetime where
  instant : ℚ
  hour : ℕ
deriving DecidableEq

/-- A post dict: `content` (default empty) and optional timestamp. -/
structure Post where
  content : List Char
  timestamp : Option PyDatetime

/-- A profile snapshot as read by `BotDetector.analyze`: absent
`username`/`bio` are the empty string, `metadata := none` models a
missing (or empty, hence falsy) metadata dict, absent `posts` is the
empty list. -/
structure Profile where
  username : List Char
  bio : List Char
  metadata : Option Metadata
  posts : List Post

/-- The result dict of `BotDetector.analyze` (the `flags` and
`component_scores` entries, which no claim concerns, are omitted; they
do not feed back into these three fields). -/
structure BotResult where
  score : ℚ
  is_bot : Bool
  confidence : ℚ
deriving DecidableEq

/-- The vowel/consonant ratio increment of `_analyze_username`: the
division is evaluated only under the source's `consonants > 0`
short-circuit guard. -/
def usernameRatioScore? (vowels consonants : ℕ) : Option ℕ :=
  if 0 < consonants then
    (div? vowels (max consonants 1)).map fun r => if r < 0.1 then 15 else 0
  else some 0

/-- Embeds `_analyze_username` (score part; flags omitted): 25 per
matched signature pattern, the two length checks, the no-letters check
and the vowel-ratio check, clamped to 100. -/
def analyzeUsername (username : List Char) : Option ℕ :=
  if username.isEmpty then some 50
  else
    (usernameRatioScore?
        ((toLowerL username).countP fun c => "aeiou".toList.contains c)
        ((toLowerL username).countP fun c => c.isAlpha && !"aeiou".toList.contains c)).map
      fun ratioScore =>
        min (25 * (usernameMatchers.countP fun m => m (toLowerL username))
          + (if username.length < 3 then 20 else if 25 < username.length then 10 else 0)
          + (if username.any Char.isAlpha then 0 else 30)
          + ratioScore) 100

/-- Embeds `_analyze_bio` (score part; flags omitted). Contains no
division, hence total. -/
def analyzeBio (bio : List Char) : ℕ :=
  if bio.isEmpty then 30
  else
    let bl := toLowerL bio
    let spam := SPAM_BIO_PHRASES.countP fun ph => hasSub ph bl
    let generic := GENERIC_BIOS.countP fun ph => hasSub ph bl
    let emoji := if 10 < bio.countP (fun c => 127462 < c.toNat) then 15 else 0
    let tags := if 5 < bio.count '#' then 20 else 0
    let urls := if 2 < urlCount bio then 25 else 0
    let short := if bio.length < 10 then 15 else 0
    min (20 * spam + 10 * generic + emoji + tags + urls + short) 100

/-- The follower/following ratio increment of `_analyze_metrics`: the
ratio is computed only under the source's `following > 0` guard. -/
def metricsRatioScore? (md : Metadata) : Option ℕ :=
  if 0 < md.following then
    (div? md.followers md.following).map fun r =>
      if r < 0.01 then 40 else if 100 < r ∧ 10000 < md.followers then 10 else 0
  else some 0

/-- Embeds `_analyze_metrics` (score part; flags omitted). -/
def analyzeMetrics (md : Metadata) : Option ℕ :=
  if md.verified then some 5
  else
    (metricsRatioScore? md).map fun ratioScore =>
      let bigAcct := if 1000000 < md.followers ∧ md.posts_count < 10 then 50 else 0
      let mass := if 5000 < md.following then 25 else 0
      let active := if 100 < md.posts_count ∧ md.followers < 10 then 30 else 0
      let noPosts := if md.posts_count = 0 ∧ 100 < md.followers then 35 else 0
      min (ratioScore + bigAcct + mass + active + noPosts) 100

/-- The non-empty post contents (`contents` of `_analyze_content`). -/
def contentsOf (posts : List Post) : List (List Char) :=
  (posts.map Post.content).filter fun c => !c.isEmpty

/-- All hashtag tokens over a content list (`all_hashtags`). -/
def allHashtags (contents : List (List Char)) : List (List Char) :=
  (contents.map extractHashtags).flatten

/-- The hashtag repetition increment of `_analyze_content`: the ratio
total/unique is computed only under the source's
`len(all_hashtags) > 0` guard. -/
def contentRepScore? (contents : List (List Char)) : Option ℕ :=
  if 0 < (allHashtags contents).length then
    (div? (allHashtags contents).length (allHashtags contents).dedup.length).map fun r =>
      if 5 < r then 25 else 0
  else some 0

/-- Embeds `_analyze_content` (score part; flags omitted). The average
length divides by the number of non-empty contents, which the early
return keeps nonzero. -/
def analyzeContent (posts : List Post) : Option ℕ :=
  if posts.isEmpty then some 30
  else if (contentsOf posts).isEmpty then some 30
  else
    let contents := contentsOf posts
    let dup := if (contents.dedup.length : ℚ) < (contents.length : ℚ) * 0.5 then 40 else 0
    let promoCount := contents.countP fun c => promoPhrases.any fun w => hasSub w (toLowerL c)
    let promo := if (contents.length : ℚ) * 0.5 < (promoCount : ℚ) then 35 else 0
    (contentRepScore? contents).bind fun rep =>
      (div? ((contents.map List.length).sum : ℚ) (contents.length : ℚ)).map fun avg =>
        min (dup + rep + (if avg < 20 then 20 else 0) + promo) 100

/-- Successive differences of a list, the inter-post intervals of
`_analyze_temporal`. -/
def diffs : List ℚ → List ℚ
  | a :: b :: rest => (b - a) :: diffs (b :: rest)
  | _ => []

/-- The sorted parsed timestamps of a post list (`timestamps` after the
in-place sort of `_analyze_temporal`). -/
def sortedTimestamps (posts : List Post) : List PyDatetime :=
  List.insertionSort (fun a b : PyDatetime => a.instant ≤ b.instant)
    (posts.filterMap Post.timestamp)

/-- The inter-post intervals in seconds (`intervals`). -/
def intervalsOf (posts : List Post) : List ℚ :=
  diffs ((sortedTimestamps posts).map PyDatetime.instant)

/-- The regularity increment of `_analyze_temporal`: `np.mean` and the
regularity test divide only under the source's guards; since
`std = sqrt(variance)` is irrational, the test `std/avg < 0.1` is
carried out as the equivalent `variance * 100 / avg² < 1` (both sides
nonnegative, `avg > 0` in the guarded branch). -/
def temporalRegScore? (avg varc : ℚ) : Option ℕ :=
  if 0 < avg then (div? (varc * 100) (avg ^ 2)).map fun r => if r < 1 then 50 else 0
  else some 0

/-- Embeds `_analyze_temporal` (score part; flags omitted). -/
def analyzeTemporal (posts : List Post) : Option ℕ :=
  if posts.length < 3 then some 30
  else if (posts.filterMap Post.timestamp).length < 3 then some 30
  else if (intervalsOf posts).isEmpty then some 30
  else
    let intervals := intervalsOf posts
    let burst :=
      if (intervals.length : ℚ) * 0.3 < (intervals.countP fun i => decide (i < 60) : ℕ)
      then 35 else 0
    let sleep := if 20 < (sortedTimestamps posts).length ∧
        20 < (((sortedTimestamps posts).map PyDatetime.hour).dedup.length)
      then 30 else 0
    (div? intervals.sum intervals.length).bind fun avg =>
      ((div? ((intervals.map fun x => (x - avg) ^ 2).sum) intervals.length).bind
        fun varc => temporalRegScore? avg varc).map fun reg =>
          min (reg + burst + sleep) 100

/-- Embeds `_calculate_confidence` of `BotDetector`. -/
def calculateConfidence (p : Profile) : ℚ :=
  let c := 0.5 + (if !p.bio.isEmpty then (0.1 : ℚ) else 0)
    + (if p.metadata.isSome then (0.15 : ℚ) else 0)
    + (if !p.posts.isEmpty then
        (if 10 < p.posts.length then (0.2 : ℚ) else if 3 < p.posts.length then 0.1 else 0)
      else 0)
  min (pyRound c 2) 1

/-- Embeds `BotDetector.analyze`: the five sub-scores, their fixed
weighted sum, the rounded score, the `is_bot` threshold and the
confidence. -/
def analyze (p : Profile) : Option BotResult := do
  let u ← analyzeUsername p.username
  let b := analyzeBio p.bio
  let m ← analyzeMetrics (p.metadata.getD ⟨0, 0, 0, false⟩)
  let c ← analyzeContent p.posts
  let t ← analyzeTemporal p.posts
  let final : ℚ := u * 0.15 + b * 0.15 + m * 0.25 + c * 0.25 + t * 0.20
  pure ⟨pyRound final 1, decide (50 < final), calculateConfidence p⟩

end Bombardier.BotDetector

namespace Bombardier.SentimentAnalyzer

open Bombardier

/-- An apostrophe character (written by code point). -/
def apos : Char := Char.ofNat 39

/-- The `POSITIVE_WORDS` lexicon. -/
def POSITIVE_WORDS : List (List Char × ℚ) :=
  ([("amazing", 0.9), ("excellent", 0.9), ("outstanding", 0.9), ("incredible", 0.9),
    ("fantastic", 0.9), ("wonderful", 0.9), ("brilliant", 0.9), ("exceptional", 0.9),
    ("great", 0.7), ("good", 0.6), ("nice", 0.5), ("happy", 0.7), ("love", 0.8),
    ("awesome", 0.8), ("beautiful", 0.7), ("perfect", 0.9), ("best", 0.8),
    ("excited", 0.7), ("grateful", 0.7), ("blessed", 0.6), ("thrilled", 0.8),
    ("enjoy", 0.6), ("appreciate", 0.6), ("thankful", 0.7), ("proud", 0.7),
    ("successful", 0.7), ("positive", 0.6), ("inspiring", 0.7), ("motivated", 0.6),
    ("like", 0.4), ("okay", 0.2), ("fine", 0.3), ("cool", 0.5), ("interesting", 0.4),
    ("helpful", 0.5), ("useful", 0.5), ("recommend", 0.6), ("thanks", 0.5)]
    : List (String × ℚ)).map fun e => (e.1.toList, e.2)

/-- The `NEGATIVE_WORDS` lexicon. -/
def NEGATIVE_WORDS : List (List Char × ℚ) :=
  ([("terrible", -0.9), ("horrible", -0.9), ("awful", -0.9), ("worst", -0.9),
    ("disgusting", -0.9), ("hate", -0.8), ("disaster", -0.8), ("pathetic", -0.8),
    ("bad", -0.6), ("poor", -0.5), ("disappointing", -0.7), ("upset", -0.6),
    ("angry", -0.7), ("frustrated", -0.6), ("annoyed", -0.5), ("sad", -0.6),
    ("boring", -0.5), ("waste", -0.6), ("stupid", -0.7), ("useless", -0.7),
    ("wrong", -0.5), ("failed", -0.6), ("broken", -0.5), ("problem", -0.4),
    ("dislike", -0.4), ("meh", -0.2), ("mediocre", -0.3), ("issue", -0.3),
    ("difficult", -0.3), ("confusing", -0.4), ("worried", -0.4)]
    : List (String × ℚ)).map fun e => (e.1.toList, e.2)

/-- The `INTENSIFIERS` table. -/
def INTENSIFIERS : List (List Char × ℚ) :=
  ([("very", 1.5), ("really", 1.4), ("extremely", 1.7), ("absolutely", 1.8),
    ("totally", 1.5), ("completely", 1.6), ("incredibly", 1.7), ("super", 1.4),
    ("so", 1.3), ("quite", 1.2), ("pretty", 1.2), ("highly", 1.4)]
    : List (String × ℚ)).map fun e => (e.1.toList, e.2)

/-- The `NEGATORS` list (the second entry is the three characters
`n`, apostrophe, `t`). -/
def NEGATORS : List (List Char) :=
  ["not".toList, ['n', apos, 't'], "no".toList, "never".toList, "none".toList,
   "nothing".toList, "neither".toList, "nowhere".toList]

/-- The characters of the `positive` emoji class of `EMOJI_PATTERNS`
(the class spells the red heart as two code points, U+2764 U+FE0F). -/
def posEmoji : List Char :=
  "😀😃😄😁😆😅🤣😂🙂🙃😉😊😇🥰😍🤩😘😗☺😚😙🥲😋😛😜🤪😝👍👏🎉❤️💕💖💗💙💚💛🧡💜🤎🖤🤍💯✨🌟⭐🔥💪".toList

/-- The characters of the `negative` emoji class of `EMOJI_PATTERNS`. -/
def negEmoji : List Char :=
  "😞😔😟😕🙁☹️😣😖😫😩🥺😢😭😤😠😡🤬😈👿💀👎💔😰😨😱".toList

/-- The characters of the `neutral` emoji class of `EMOJI_PATTERNS`. -/
def neutEmoji : List Char := "😐😑😶🤔🤨🧐😏🙄😬🤥".toList

/-- Exact lookup in a word→value table (`word in dict` / `dict[word]`). -/
def lookupTable (tbl : List (List Char × ℚ)) (w : List Char) : Option ℚ :=
  (tbl.find? fun e => e.1 == w).map fun e => e.2

/-- The matched-token scores of `_lexicon_analysis`: walk the word list
with the previous word at hand; a token found in a lexicon contributes
its value times the intensity of a preceding intensifier, with sign
flipped and magnitude halved after a preceding negator. -/
def lexScores : Option (List Char) → List (List Char) → List ℚ
  | _, [] => []
  | prev, w :: rest =>
    let negated := match prev with
      | some pw => NEGATORS.any fun ng => hasSub ng pw
      | none => false
    let intensity : ℚ := match prev with
      | some pw => (lookupTable INTENSIFIERS pw).getD 1
      | none => 1
    let hit := match lookupTable POSITIVE_WORDS w with
      | some v => some v
      | none => lookupTable NEGATIVE_WORDS w
    (match hit with
      | some v => [if negated then -(v * intensity) * 0.5 else v * intensity]
      | none => []) ++ lexScores (some w) rest

/-- Embeds `_lexicon_analysis`: `None` on an empty token list, else the
summed matched scores normalized by `max(len(scores), len(words)/5)`
(that denominator is at least `len(scores) ≥ 1`, hence nonzero). -/
def lexiconAnalysis (text : List Char) : Option ℚ :=
  let ws := splitWords (toLowerL text)
  if ws.isEmpty then none
  else
    let ss := lexScores none ws
    if ss.isEmpty then some 0
    else some (ss.sum / max (ss.length : ℚ) ((ws.length : ℚ) / 5))

/-- Embeds `_emoji_analysis`: abstain without emoji, else the clamped
weighted count difference over the total emoji count. -/
def emojiAnalysis (text : List Char) : Option ℚ :=
  let p := text.countP posEmoji.contains
  let n := text.countP negEmoji.contains
  let neu := text.countP neutEmoji.contains
  let total := p + n + neu
  if total = 0 then none
  else some (max (-1) (min 1 (((p : ℚ) * 0.8 - (n : ℚ) * 0.8) / (total : ℚ))))

/-- Decides a `re.search` for a phrase whose first and last characters
are word characters, wrapped in `\b` boundaries: the phrase occurs at a
position whose neighbours (if any) are non-word characters. -/
def boundSub (pat s : List Char) : Bool :=
  (List.range (s.length + 1)).any fun i =>
    pat.isPrefixOf (s.drop i) &&
      (match (s.take i).getLast? with | some c => !isWordChar c | none => true) &&
      (match (s.drop (i + pat.length)).head? with | some c => !isWordChar c | none => true)

/-- The five positive regex groups of `_pattern_analysis`, each given by
its alternatives (a `\b`-delimited alternation matches exactly when one
alternative matches with boundaries). -/
def posPatternAlts : List (List (List Char)) :=
  [["lol", "lmao", "haha", "hehe"].map String.toList,
   ["thank", "thanks", "thankyou"].map String.toList,
   ["congrat", "congrats", "congratulations"].map String.toList,
   ["well done".toList],
   ["good job", "good work"].map String.toList]

/-- The four negative regex groups of `_pattern_analysis` (the last
alternation spells `can`, apostrophe, `t stand`). -/
def negPatternAlts : List (List (List Char)) :=
  [["ugh", "ew", "yuck"].map String.toList,
   ["unfortunately".toList],
   ["waste of".toList],
   ["can".toList ++ [apos] ++ "t stand".toList, "cannot stand".toList]]

/-- Embeds `_pattern_analysis`: exclamation/question counts, ALL-CAPS
word ratio and the fixed phrase groups; abstains when no indicator
triggered. -/
def patternAnalysis (text : List Char) : Option ℚ :=
  let tl := toLowerL text
  let ex := text.count '!'
  let qs := text.count '?'
  let ws := wsSplit text
  let caps := ws.countP fun w =>
    w.any Char.isAlpha && w.all (fun c => !c.isAlpha || c.isUpper) && decide (2 < w.length)
  let posHits := posPatternAlts.countP fun alts => alts.any fun pt => boundSub pt tl
  let negHits := negPatternAlts.countP fun alts => alts.any fun pt => boundSub pt tl
  let indicators := (if 0 < ex then 1 else 0) + (if 0 < qs then 1 else 0)
    + (if 0 < caps then 1 else 0) + posHits + negHits
  let score : ℚ := (if 0 < ex then min ((ex : ℚ) * 0.05) 0.2 else 0)
    - (if 0 < qs then min ((qs : ℚ) * 0.02) 0.1 else 0)
    + (if 0 < caps then 0.1 * ((caps : ℚ) / ((max ws.length 1 : ℕ) : ℚ)) else 0)
    + (posHits : ℚ) * 0.2 - (negHits : ℚ) * 0.2
  if indicators = 0 then none else some (max (-1) (min 1 score))

/-- Embeds `_calculate_confidence` of `SentimentAnalyzer`: word-count
adjustments, one bonus per present signal, an agreement bonus when no
two nonzero signals differ in sign (vacuously granted when every signal
is zero, as in the source's `all(...)`), clamped to `[0.1, 1.0]`. -/
def calculateConfidence (text : List Char) (valid : List (ℚ × ℚ)) : ℚ :=
  let wc := (wsSplit text).length
  let c1 : ℚ := 0.5 +
    (if 50 < wc then (0.2 : ℚ) else if 20 < wc then 0.1 else if wc < 5 then -0.1 else 0)
  let c2 := c1 + (valid.length : ℚ) * 0.1
  let nz := (valid.map Prod.fst).filter fun s => decide (s ≠ 0)
  let agreement := nz.all (fun s => decide (0 < s)) || nz.all fun s => decide (s < 0)
  let c3 := c2 + (if 2 ≤ valid.length ∧ agreement then (0.15 : ℚ) else 0)
  min (max c3 0.1) 1

/-- The result dict of `SentimentAnalyzer.analyze`; the `breakdown`
mapping is flattened into the three signal fields. -/
structure SentimentResult where
  overall : ℚ
  confidence : ℚ
  label : String
  lexicon : ℚ
  emoji : ℚ
  pattern : ℚ
deriving DecidableEq

/-- Embeds `SentimentAnalyzer.analyze`: empty/blank text short-circuits
to the neutral result; otherwise the three signals are combined by a
weighted average over the signals that did not abstain (the weight sum
is nonzero since some weight 0.5 or 0.25 is present). In the breakdown,
an abstaining or zero-valued signal is reported as 0, following the
source's truthiness test `round(s, 3) if s else 0`. -/
def analyze (text : List Char) : SentimentResult :=
  if (pyStrip text).isEmpty then ⟨0, 0, "neutral", 0, 0, 0⟩
  else
    let t := pyStrip text
    let lex := lexiconAnalysis t
    let emo := emojiAnalysis t
    let pat := patternAnalysis t
    let valid := ([(lex, (0.5 : ℚ)), (emo, 0.25), (pat, 0.25)]).filterMap
      fun sw => sw.1.map fun v => (v, sw.2)
    let overall : ℚ := if valid.isEmpty then 0
      else (valid.map fun sw => sw.1 * sw.2).sum / (valid.map Prod.snd).sum
    let conf := calculateConfidence t valid
    let label := if (0.2 : ℚ) < overall then "positive"
      else if overall < -0.2 then "negative" else "neutral"
    ⟨pyRound overall 3, pyRound conf 3, label,
      match lex with | some v => if v = 0 then 0 else pyRound v 3 | none => 0,
      match emo with | some v => if v = 0 then 0 else pyRound v 3 | none => 0,
      match pat with | some v => if v = 0 then 0 else pyRound v 3 | none => 0⟩

end Bombardier.SentimentAnalyzer

namespace Bombardier.InterestExtractor

open Bombardier

/-- The `INTEREST_CATEGORIES` table, in source (insertion) order. -/
def INTEREST_CATEGORIES : List (List Char × List (List Char)) :=
  ([("technology",
     ["tech", "coding", "programming", "developer", "software", "hardware", "ai",
      "artificial intelligence", "machine learning", "ml", "data science", "blockchain",
      "crypto", "web3", "nft", "startup", "saas", "api", "javascript", "python", "react",
      "node", "ios", "android", "app", "cloud", "devops", "cybersecurity", "hacking",
      "opensource"]),
    ("business",
     ["entrepreneur", "entrepreneurship", "startup", "founder", "ceo", "cto", "business",
      "marketing", "sales", "growth", "revenue", "investment", "venture", "vc", "funding",
      "money", "finance", "fintech", "banking", "stocks", "trading", "real estate",
      "consulting", "strategy"]),
    ("creative",
     ["design", "designer", "art", "artist", "creative", "photography", "photo", "video",
      "film", "music", "musician", "producer", "dj", "writing", "writer", "author",
      "content", "creator", "influencer", "fashion", "style", "aesthetic", "visual",
      "graphic", "ui", "ux"]),
    ("sports",
     ["fitness", "gym", "workout", "training", "sports", "athlete", "running", "marathon",
      "cycling", "swimming", "yoga", "meditation", "football", "soccer", "basketball",
      "baseball", "tennis", "golf", "crossfit", "bodybuilding", "weightlifting", "hiking",
      "climbing"]),
    ("entertainment",
     ["gaming", "gamer", "esports", "twitch", "streaming", "youtube", "movies", "film",
      "tv", "netflix", "anime", "manga", "comics", "music", "concerts", "festivals",
      "podcast", "comedy", "memes"]),
    ("lifestyle",
     ["travel", "adventure", "wanderlust", "backpacking", "foodie", "food", "cooking",
      "chef", "wine", "coffee", "wellness", "health", "vegan", "sustainable", "minimalist",
      "luxury", "lifestyle", "parenting", "family"]),
    ("education",
     ["learning", "education", "teacher", "professor", "student", "university", "research",
      "science", "physics", "chemistry", "biology", "math", "history", "philosophy",
      "psychology", "sociology", "economics"]),
    ("social",
     ["activism", "social", "community", "nonprofit", "charity", "volunteer", "politics",
      "environment", "climate", "sustainability", "diversity", "inclusion", "equality",
      "justice", "human rights", "mental health"])]
   : List (String × List String)).map fun e => (e.1.toList, e.2.map String.toList)

/-- Embeds `get_category`: the `_keyword_to_category` dict is built by
inserting the categories in source order with later insertions
overwriting earlier ones, so the lookup finds the last category whose
keyword list holds the lowercased interest; default `"general"`. -/
def getCategory (interest : List Char) : List Char :=
  ((INTEREST_CATEGORIES.reverse.find? fun e =>
    e.2.contains (toLowerL interest)).map Prod.fst).getD "general".toList

/-- Embeds `find_common_interests`. A Python `set` is modelled as a
deduplicated list in first-occurrence order; since Python's set
iteration order is unspecified (hash-dependent), only multiset-level
properties of this function are claimed below. -/
def findCommonInterests (interests1 interests2 : List (List Char)) : List (List Char) :=
  let set1 := (interests1.map toLowerL).dedup
  let set2 := (interests2.map toLowerL).dedup
  let common := set1.filter fun i => set2.contains i
  let cats1 := (interests1.map getCategory).dedup
  let cats2 := (interests2.map getCategory).dedup
  common ++
    ((cats1.filter fun c => cats2.contains c && !(c == "general".toList)).map
      fun c => '[' :: (c ++ [']']))

end Bombardier.InterestExtractor

namespace Bombardier.ProfileScorer

open Bombardier Bombardier.BotDetector

/-- The input dict of `ProfileScorer.score`: the five keys it reads,
optional ones through their defaults (`bot_score` 50, empty metadata,
empty lists, sentiment `overall` 0). -/
structure ScoreInput where
  bot_score : Option ℚ
  metadata : Option Metadata
  interests : List (List Char)
  target_interests : List (List Char)
  sentiment : Option ℚ

/-- The result dict of `ProfileScorer.score` (the `recommendation_text`
is omitted; it is a fixed function of `recommendation`). The four
component fields hold the rounded values of the output `components`
mapping; `overall` and `tier` are computed from the unrounded values as
in the source. -/
structure QualityScore where
  overall : ℚ
  authenticity : ℚ
  engagement : ℚ
  relevance : ℚ
  accessibility : ℚ
  recommendation : String
  tier : String
deriving DecidableEq

/-- Embeds `_calculate_engagement_score`; the follower/following ratio
is read only under the source's `following > 0` guard. -/
def calculateEngagementScore (md : Metadata) : ℚ :=
  let s0 : ℚ := 50
  let s1 := if md.verified then s0 + 20 else s0
  let s2 := if 10000 < md.followers then s1 + 15
    else if 1000 < md.followers then s1 + 10
    else if 100 < md.followers then s1 + 5
    else if md.followers < 10 then s1 - 10 else s1
  let s3 := if 0 < md.following then
      (let r : ℚ := (md.followers : ℚ) / (md.following : ℚ)
      if 2 < r then s2 + 15 else if 1 < r then s2 + 10 else if r < 0.1 then s2 - 15 else s2)
    else s2
  let s4 := if 100 < md.posts_count then s3 + 10
    else if 20 < md.posts_count then s3 + 5
    else if md.posts_count < 5 then s3 - 10 else s3
  max 0 (min 100 s4)

/-- Embeds `_calculate_relevance_score`. -/
def calculateRelevanceScore (profileInterests targetInterests : List (List Char)) : ℚ :=
  if profileInterests.isEmpty then 30
  else if targetInterests.isEmpty then 50
  else
    let ps := (profileInterests.map toLowerL).dedup
    let ts := (targetInterests.map toLowerL).dedup
    let exactCount := ps.countP fun i => ts.contains i
    let overlapPairs := (ps.map fun p => ts.countP fun t => hasSub p t || hasSub t p).sum
    max 0 (min 100 (30 + (exactCount : ℚ) * 15 + (overlapPairs : ℚ) * 5))

/-- Embeds `_calculate_accessibility_score`. -/
def calculateAccessibilityScore (md : Metadata) (sentimentOverall : ℚ) : ℚ :=
  let s0 : ℚ := 50
  let s1 := if 0.3 < sentimentOverall then s0 + 20
    else if 0 < sentimentOverall then s0 + 10
    else if sentimentOverall < -0.3 then s0 - 15 else s0
  let s2 := if md.verified then s1 - 10 else s1
  let s3 := if 100000 < md.followers then s2 - 20
    else if 10000 < md.followers then s2 - 10
    else if md.followers < 100 then s2 + 10 else s2
  let s4 := if 50 < md.posts_count then s3 + 10 else if md.posts_count < 5 then s3 - 10 else s3
  max 0 (min 100 s4)

/-- Embeds `_get_tier`. -/
def getTier (s : ℚ) : String :=
  if 80 ≤ s then "S" else if 65 ≤ s then "A" else if 50 ≤ s then "B"
  else if 35 ≤ s then "C" else "D"

/-- Embeds `ProfileScorer.score`: the four component scores, the fixed
weighted overall, the recommendation and tier thresholds. -/
def score (p : ScoreInput) : QualityScore :=
  let authenticity : ℚ := max 0 (100 - p.bot_score.getD 50)
  let md := p.metadata.getD ⟨0, 0, 0, false⟩
  let engagement := calculateEngagementScore md
  let relevance := calculateRelevanceScore p.interests p.target_interests
  let accessibility := calculateAccessibilityScore md (p.sentiment.getD 0)
  let overall := authenticity * 0.30 + engagement * 0.25 + relevance * 0.25
    + accessibility * 0.20
  let recommendation := if 75 ≤ overall then "high_priority"
    else if 50 ≤ overall then "good_target"
    else if 30 ≤ overall then "consider" else "skip"
  ⟨pyRound overall 1, pyRound authenticity 1, pyRound engagement 1, pyRound relevance 1,
    pyRound accessibility 1, recommendation, getTier overall⟩

/-- Embeds `rank_profiles`: attach each profile's quality score, then
sort by `overall` descending. Python's `list.sort(key=..., reverse=True)`
is a stable sort, and a stable sort's output is uniquely determined by
the comparator and the input order; `List.insertionSort` with this
relation is such a stable sort (its stability is proved below), so it is
a faithful model of Timsort here. -/
def rankProfiles (profiles : List ScoreInput) : List (ScoreInput × QualityScore) :=
  List.insertionSort (fun a b : ScoreInput × QualityScore => b.2.overall ≤ a.2.overall)
    (profiles.map fun p => (p, score p))

end Bombardier.ProfileScorer

namespace Bombardier

/-- An integer lower bound below a rational stays below its
round-half-to-even. -/
theorem le_rhe {z : ℤ} {q : ℚ} (h : (z : ℚ) ≤ q) : z ≤ rhe q := by
  have hfl : z ≤ ⌊q⌋ := Int.le_floor.mpr h
  unfold rhe
  have hmono : ⌊q⌋ ≤ ⌊q + 1/2⌋ := Int.floor_le_floor (by linarith)
  split
  · split <;> omega
  · omega

/-- An integer upper bound above a rational stays above its
round-half-to-even. -/
theorem rhe_le {z : ℤ} {q : ℚ} (h : q ≤ (z : ℚ)) : rhe q ≤ z := by
  unfold rhe
  split
  · rename_i h2
    have hq : (⌊q⌋ : ℚ) + 1/2 = q := by linarith
    have hlt : (⌊q⌋ : ℚ) < (z : ℚ) := by linarith
    have hzi : ⌊q⌋ < z := by exact_mod_cast hlt
    split <;> omega
  · have h3 : ⌊q + 1/2⌋ < z + 1 := Int.floor_lt.mpr (by push_cast; linarith)
    omega

/-- Round half to even fixes integers. -/
theorem rhe_intCast (n : ℤ) : rhe (n : ℚ) = n := by
  have h1 : (n : ℚ) ≤ (n : ℚ) := le_refl _
  have := le_rhe h1
  have := rhe_le h1
  omega

/-- Integer bounds on `q * 10^n` bound `pyRound q n` by the scaled
values. -/
theorem pyRound_bounds {q : ℚ} {n : ℕ} {z₁ z₂ : ℤ}
    (h₁ : (z₁ : ℚ) ≤ q * 10 ^ n) (h₂ : q * 10 ^ n ≤ (z₂ : ℚ)) :
    (z₁ : ℚ) / 10 ^ n ≤ pyRound q n ∧ pyRound q n ≤ (z₂ : ℚ) / 10 ^ n := by
  have ha := le_rhe h₁
  have hb := rhe_le h₂
  have hpow : (0 : ℚ) < 10 ^ n := by positivity
  have ha2 : (z₁ : ℚ) ≤ (rhe (q * 10 ^ n) : ℚ) := by exact_mod_cast ha
  have hb2 : ((rhe (q * 10 ^ n)) : ℚ) ≤ (z₂ : ℚ) := by exact_mod_cast hb
  unfold pyRound
  constructor
  · gcongr
  · gcongr

end Bombardier

namespace Bombardier.BotDetector

open Bombardier

/-- Unfolding a successful `BotDetector.analyze`: the five sub-scores
exist and the result is the weighted combination record. -/
theorem analyze_some_elim {p : Profile} {r : BotResult} (h : analyze p = some r) :
    ∃ u m c t, analyzeUsername p.username = some u ∧
      analyzeMetrics (p.metadata.getD ⟨0, 0, 0, false⟩) = some m ∧
      analyzeContent p.posts = some c ∧ analyzeTemporal p.posts = some t ∧
      r = ⟨pyRound ((u : ℚ) * 0.15 + (analyzeBio p.bio : ℚ) * 0.15 + (m : ℚ) * 0.25
            + (c : ℚ) * 0.25 + (t : ℚ) * 0.20) 1,
          decide (50 < (u : ℚ) * 0.15 + (analyzeBio p.bio : ℚ) * 0.15 + (m : ℚ) * 0.25
            + (c : ℚ) * 0.25 + (t : ℚ) * 0.20),
          calculateConfidence p⟩ := by
  rcases r with ⟨rs, rb, rc⟩
  cases hu : analyzeUsername p.username with
  | none => simp [analyze, hu] at h
  | some u =>
  cases hm : analyzeMetrics (p.metadata.getD ⟨0, 0, 0, false⟩) with
  | none => simp [analyze, hu, hm] at h
  | some m =>
  cases hc : analyzeContent p.posts with
  | none => simp [analyze, hu, hm, hc] at h
  | some c =>
  cases ht : analyzeTemporal p.posts with
  | none => simp [analyze, hu, hm, hc, ht] at h
  | some t =>
  refine ⟨u, m, c, t, rfl, rfl, rfl, rfl, ?_⟩
  simp only [analyze, hu, hm, hc, ht, Option.some_bind, Option.bind_eq_bind] at h
  simpa [BotResult.mk.injEq, eq_comm] using h

end Bombardier.BotDetector

namespace Bombardier

/-- A guarded division with nonzero denominator succeeds. -/
theorem div?_isSome {a b : ℚ} (h : b ≠ 0) : (div? a b).isSome := by
  simp [div?, h]

end Bombardier

namespace Bombardier.BotDetector

open Bombardier

/-- The confidence of `BotDetector._calculate_confidence` lies in
`[0.5, 0.95]`: the base 0.5 is never reduced and the three data
bonuses add at most 0.45. -/
theorem calculateConfidence_bounds (p : Profile) :
    (0.5 : ℚ) ≤ calculateConfidence p ∧ calculateConfidence p ≤ 0.95 := by
  unfold calculateConfidence
  set X : ℚ := 0.5 + (if !p.bio.isEmpty then (0.1 : ℚ) else 0)
    + (if p.metadata.isSome then (0.15 : ℚ) else 0)
    + (if !p.posts.isEmpty then
        (if 10 < p.posts.length then (0.2 : ℚ) else if 3 < p.posts.length then 0.1 else 0)
      else 0) with hX
  clear_value X
  have hb : (1/2 : ℚ) ≤ X ∧ X ≤ 19/20 := by rw [hX]; split_ifs <;> norm_num
  have h1 : ((50 : ℤ) : ℚ) ≤ X * 10 ^ 2 := by push_cast; norm_num; linarith [hb.1]
  have h2 : X * 10 ^ 2 ≤ ((95 : ℤ) : ℚ) := by push_cast; norm_num; linarith [hb.2]
  obtain ⟨hl, hu⟩ := pyRound_bounds h1 h2
  norm_num at hl hu
  constructor
  · exact le_min (by linarith) (by norm_num)
  · exact le_trans (min_le_left _ _) (by linarith)

/-- Claim C10: for every profile input, the confidence returned by
`BotDetector.analyze` lies in `[0.5, 0.95]`: the 0.5 base is never
reduced, the data-availability bonuses sum to at most 0.45, and the cap
at 1.0 is never binding. -/
theorem C10_bot_confidence_in_bounds (p : Profile) (r : BotResult)
    (h : analyze p = some r) : (0.5 : ℚ) ≤ r.confidence ∧ r.confidence ≤ 0.95 := by
  obtain ⟨u, m, c, t, _, _, _, _, hr⟩ := analyze_some_elim h
  subst hr
  exact calculateConfidence_bounds p

/-- An `Option.bind` of two succeeding stages succeeds. -/
theorem isSome_bind {α β : Type} {o : Option α} {k : α → Option β}
    (h1 : o.isSome) (h2 : ∀ a, (k a).isSome) : (o.bind k).isSome := by
  cases o
  · simp at h1
  · simpa using h2 _

/-- The vowel-ratio increment never fails: it divides by
`max(consonants, 1) ≥ 1`. -/
theorem usernameRatioScore?_isSome (v c : ℕ) : (usernameRatioScore? v c).isSome := by
  unfold usernameRatioScore?
  split
  · simp only [Option.isSome_map']
    apply div?_isSome
    positivity
  · rfl

/-- The username sub-analysis never fails. -/
theorem analyzeUsername_isSome (u : List Char) : (analyzeUsername u).isSome := by
  unfold analyzeUsername
  split
  · rfl
  · simp only [Option.isSome_map']
    exact usernameRatioScore?_isSome _ _

/-- The ratio increment of the metrics sub-analysis never fails: it
divides only under the `following > 0` guard. -/
theorem metricsRatioScore?_isSome (md : Metadata) : (metricsRatioScore? md).isSome := by
  unfold metricsRatioScore?
  split
  · rename_i hf
    simp only [Option.isSome_map']
    apply div?_isSome
    exact_mod_cast Nat.pos_iff_ne_zero.mp hf
  · rfl

/-- The metrics sub-analysis never fails. -/
theorem analyzeMetrics_isSome (md : Metadata) : (analyzeMetrics md).isSome := by
  unfold analyzeMetrics
  split
  · rfl
  · simp only [Option.isSome_map']
    exact metricsRatioScore?_isSome md

/-- The hashtag repetition increment never fails: it divides by the
dedup of a nonempty hashtag list. -/
theorem contentRepScore?_isSome (contents : List (List Char)) :
    (contentRepScore? contents).isSome := by
  unfold contentRepScore?
  split
  · rename_i ht
    have hdne : (allHashtags contents).dedup ≠ [] := by
      intro hnil
      rw [List.dedup_eq_nil] at hnil
      simp [hnil] at ht
    simp only [Option.isSome_map']
    apply div?_isSome
    have h1 : 0 < (allHashtags contents).dedup.length := List.length_pos.mpr hdne
    exact_mod_cast Nat.pos_iff_ne_zero.mp h1
  · rfl

/-- The content sub-analysis never fails: the average length divides by
the nonzero count of non-empty contents. -/
theorem analyzeContent_isSome (posts : List Post) : (analyzeContent posts).isSome := by
  unfold analyzeContent
  split
  · rfl
  · split
    · rfl
    · rename_i hp hc
      simp only []
      apply isSome_bind
      · exact contentRepScore?_isSome _
      · intro rep
        simp only [Option.isSome_map']
        apply div?_isSome
        have h0 : contentsOf posts ≠ [] := fun hnil => hc (by simp [hnil])
        have h1 : 0 < (contentsOf posts).length := List.length_pos.mpr h0
        exact_mod_cast Nat.pos_iff_ne_zero.mp h1

/-- The regularity increment never fails: it divides by `avg² ≠ 0` only
under the `avg > 0` guard. -/
theorem temporalRegScore?_isSome (avg varc : ℚ) : (temporalRegScore? avg varc).isSome := by
  unfold temporalRegScore?
  split
  · rename_i h
    simp only [Option.isSome_map']
    apply div?_isSome
    positivity
  · rfl

/-- The temporal sub-analysis never fails: the mean and variance divide
by the nonzero interval count. -/
theorem analyzeTemporal_isSome (posts : List Post) : (analyzeTemporal posts).isSome := by
  unfold analyzeTemporal
  split
  · rfl
  · split
    · rfl
    · split
      · rfl
      · rename_i h1 h2 h3
        simp only []
        have hlen : (((intervalsOf posts).length : ℕ) : ℚ) ≠ 0 := by
          have h0 : intervalsOf posts ≠ [] := fun hnil => h3 (by simp [hnil])
          have h4 : 0 < (intervalsOf posts).length := List.length_pos.mpr h0
          exact_mod_cast Nat.pos_iff_ne_zero.mp h4
        apply isSome_bind
        · exact div?_isSome hlen
        · intro avg
          simp only [Option.isSome_map']
          apply isSome_bind
          · exact div?_isSome hlen
          · intro varc
            exact temporalRegScore?_isSome _ _

/-- Claim C9: `BotDetector.analyze` is total: every division it
performs is guarded (followers/following by `following > 0`, the
regularity ratio by `avg > 0`, the hashtag repetition by the presence
of a hashtag, the vowel ratio by `max(consonants, 1)`), so the
division-by-zero branch is unreachable for every profile input. -/
theorem C9_bot_analyze_total (p : Profile) : (analyze p).isSome := by
  obtain ⟨u, hu⟩ := Option.isSome_iff_exists.mp (analyzeUsername_isSome p.username)
  obtain ⟨m, hm⟩ := Option.isSome_iff_exists.mp
    (analyzeMetrics_isSome (p.metadata.getD ⟨0, 0, 0, false⟩))
  obtain ⟨c, hc⟩ := Option.isSome_iff_exists.mp (analyzeContent_isSome p.posts)
  obtain ⟨t, ht⟩ := Option.isSome_iff_exists.mp (analyzeTemporal_isSome p.posts)
  simp [analyze, hu, hm, hc, ht]

end Bombardier.BotDetector

namespace Bombardier.BotDetector

open Bombardier

/-- A multiple of 5 clamped at 100 stays a multiple of 5. -/
theorem mul5_min100 {x : ℕ} (h : 5 ∣ x) : 5 ∣ min x 100 := by
  rw [Nat.min_def]
  split
  · exact h
  · omega

/-- The vowel-ratio increment is 15 or 0. -/
theorem usernameRatioScore?_cases {v c rs : ℕ}
    (h : usernameRatioScore? v c = some rs) : rs = 15 ∨ rs = 0 := by
  unfold usernameRatioScore? at h
  split at h
  · simp only [Option.map_eq_some'] at h
    obtain ⟨r, _, hr⟩ := h
    split at hr <;> omega
  · simp only [Option.some.injEq] at h
    omega

/-- Every username sub-score is a multiple of 5 (all its increments
are). -/
theorem analyzeUsername_mul5 {u : List Char} {s : ℕ}
    (h : analyzeUsername u = some s) : 5 ∣ s := by
  unfold analyzeUsername at h
  split at h
  · obtain rfl : (50 : ℕ) = s := by simpa using h
    omega
  · simp only [Option.map_eq_some'] at h
    obtain ⟨rs, hrs, hmin⟩ := h
    rw [← hmin]
    generalize List.countP (fun m => m (toLowerL u)) usernameMatchers = k
    apply mul5_min100
    rcases usernameRatioScore?_cases hrs with rfl | rfl <;>
      (clear hrs hmin; split_ifs <;> omega)

/-- Every bio sub-score is a multiple of 5. -/
theorem analyzeBio_mul5 (bio : List Char) : 5 ∣ analyzeBio bio := by
  unfold analyzeBio
  split
  · omega
  · simp only []
    apply mul5_min100
    split_ifs <;> omega

/-- The metrics ratio increment is 40, 10 or 0. -/
theorem metricsRatioScore?_cases {md : Metadata} {rs : ℕ}
    (h : metricsRatioScore? md = some rs) : rs = 40 ∨ rs = 10 ∨ rs = 0 := by
  unfold metricsRatioScore? at h
  split at h
  · simp only [Option.map_eq_some'] at h
    obtain ⟨r, _, hr⟩ := h
    split_ifs at hr <;> omega
  · simp only [Option.some.injEq] at h
    omega

/-- Every metrics sub-score is a multiple of 5. -/
theorem analyzeMetrics_mul5 {md : Metadata} {s : ℕ}
    (h : analyzeMetrics md = some s) : 5 ∣ s := by
  unfold analyzeMetrics at h
  split at h
  · obtain rfl : (5 : ℕ) = s := by simpa using h
    omega
  · simp only [Option.map_eq_some'] at h
    obtain ⟨rs, hrs, hmin⟩ := h
    rcases metricsRatioScore?_cases hrs with rfl | rfl | rfl <;>
      (rw [← hmin]; apply mul5_min100; split_ifs <;> omega)

/-- The hashtag repetition increment is 25 or 0. -/
theorem contentRepScore?_cases {contents : List (List Char)} {rs : ℕ}
    (h : contentRepScore? contents = some rs) : rs = 25 ∨ rs = 0 := by
  unfold contentRepScore? at h
  split at h
  · simp only [Option.map_eq_some'] at h
    obtain ⟨r, _, hr⟩ := h
    split at hr <;> omega
  · simp only [Option.some.injEq] at h
    omega

/-- Every content sub-score is a multiple of 5. -/
theorem analyzeContent_mul5 {posts : List Post} {s : ℕ}
    (h : analyzeContent posts = some s) : 5 ∣ s := by
  unfold analyzeContent at h
  split at h
  · obtain rfl : (30 : ℕ) = s := by simpa using h
    omega
  · split at h
    · obtain rfl : (30 : ℕ) = s := by simpa using h
      omega
    · simp only [Option.bind_eq_some, Option.map_eq_some'] at h
      obtain ⟨rep, hrep, avg, havg, hmin⟩ := h
      rcases contentRepScore?_cases hrep with rfl | rfl <;>
        (rw [← hmin]; apply mul5_min100; split_ifs <;> omega)

/-- The regularity increment is 50 or 0. -/
theorem temporalRegScore?_cases {avg varc : ℚ} {rs : ℕ}
    (h : temporalRegScore? avg varc = some rs) : rs = 50 ∨ rs = 0 := by
  unfold temporalRegScore? at h
  split at h
  · simp only [Option.map_eq_some'] at h
    obtain ⟨r, _, hr⟩ := h
    split at hr <;> omega
  · simp only [Option.some.injEq] at h
    omega

/-- Every temporal sub-score is a multiple of 5. -/
theorem analyzeTemporal_mul5 {posts : List Post} {s : ℕ}
    (h : analyzeTemporal posts = some s) : 5 ∣ s := by
  unfold analyzeTemporal at h
  split at h
  · obtain rfl : (30 : ℕ) = s := by simpa using h
    omega
  · split at h
    · obtain rfl : (30 : ℕ) = s := by simpa using h
      omega
    · split at h
      · obtain rfl : (30 : ℕ) = s := by simpa using h
        omega
      · simp only [Option.bind_eq_some, Option.map_eq_some'] at h
        obtain ⟨avg, havg, reg, ⟨varc, hvarc, hreg⟩, hmin⟩ := h
        rcases temporalRegScore?_cases hreg with rfl | rfl <;>
          (rw [← hmin]; apply mul5_min100; split_ifs <;> omega)

/-- The rounded score exceeds 50 exactly when the exact quarter-integer
score does: `round(K/4, 1)` crosses 50 exactly at `K > 200`. -/
theorem pyRound_quarter_gt50 (K : ℕ) : 50 < pyRound ((K : ℚ)/4) 1 ↔ 200 < K := by
  unfold pyRound
  constructor
  · intro h
    by_contra hle
    push_neg at hle
    have hK : (K : ℚ) ≤ 200 := by exact_mod_cast hle
    have h1 : (K : ℚ)/4 * 10 ^ 1 ≤ ((500 : ℤ) : ℚ) := by push_cast; linarith
    have h2 := rhe_le h1
    have h3 : ((rhe ((K : ℚ)/4 * 10 ^ 1)) : ℚ) ≤ 500 := by exact_mod_cast h2
    norm_num at h
    linarith
  · intro h
    have hK : (201 : ℚ) ≤ (K : ℚ) := by exact_mod_cast h
    have h1 : ((502 : ℤ) : ℚ) ≤ (K : ℚ)/4 * 10 ^ 1 := by push_cast; linarith
    have h2 := le_rhe h1
    have h3 : (502 : ℚ) ≤ ((rhe ((K : ℚ)/4 * 10 ^ 1)) : ℚ) := by exact_mod_cast h2
    norm_num
    linarith

/-- Claim C3: for every profile input, a returned `BotResult` has
`is_bot = true` exactly when its (rounded) `score` exceeds 50. Both
sides compare the weighted sum of the five sub-scores with 50; since
every sub-score is a multiple of 5, the weighted sum is a multiple of
1/4 and rounding to one decimal cannot move it across the 50
threshold. -/
theorem C3_is_bot_iff_score_gt_50 (p : Profile) (r : BotResult)
    (h : analyze p = some r) : r.is_bot = true ↔ 50 < r.score := by
  obtain ⟨u, m, c, t, hu, hm, hc, ht, hr⟩ := analyze_some_elim h
  obtain ⟨u', rfl⟩ := analyzeUsername_mul5 hu
  obtain ⟨b', hb'⟩ := analyzeBio_mul5 p.bio
  obtain ⟨m', rfl⟩ := analyzeMetrics_mul5 hm
  obtain ⟨c', rfl⟩ := analyzeContent_mul5 hc
  obtain ⟨t', rfl⟩ := analyzeTemporal_mul5 ht
  subst hr
  show decide _ = true ↔ 50 < pyRound _ 1
  rw [decide_eq_true_iff]
  have hf : ((5 * u' : ℕ) : ℚ) * 0.15 + ((analyzeBio p.bio : ℕ) : ℚ) * 0.15
      + ((5 * m' : ℕ) : ℚ) * 0.25 + ((5 * c' : ℕ) : ℚ) * 0.25 + ((5 * t' : ℕ) : ℚ) * 0.20
      = ((3 * u' + 3 * b' + 5 * m' + 5 * c' + 4 * t' : ℕ) : ℚ) / 4 := by
    rw [hb']
    push_cast
    ring
  rw [hf, pyRound_quarter_gt50]
  constructor
  · intro hlt
    have : (200 : ℚ) < ((3 * u' + 3 * b' + 5 * m' + 5 * c' + 4 * t' : ℕ) : ℚ) := by
      rw [lt_div_iff₀ (by norm_num : (0 : ℚ) < 4)] at hlt
      linarith
    exact_mod_cast this
  · intro hlt
    rw [lt_div_iff₀ (by norm_num : (0 : ℚ) < 4)]
    have : (200 : ℚ) < ((3 * u' + 3 * b' + 5 * m' + 5 * c' + 4 * t' : ℕ) : ℚ) := by
      exact_mod_cast hlt
    linarith

end Bombardier.BotDetector

namespace Bombardier

/-- When `q` is exactly representable with `n` decimal digits,
`pyRound q n` is `q` itself. -/
theorem pyRound_eq_self {q : ℚ} {n : ℕ} {z : ℤ} (h : q * 10 ^ n = (z : ℚ)) :
    pyRound q n = q := by
  unfold pyRound
  rw [h, rhe_intCast, div_eq_iff (by positivity : ((10 : ℚ)) ^ n ≠ 0)]
  exact h.symm

end Bombardier

namespace Bombardier.BotDetector

open Bombardier

/-- Claim C4 is false as stated: for all-default metadata the
unverified metrics sub-score is 0 while the verified one is 5, so
`verified = true` increases the metrics sub-score. -/
theorem C4_counterexample :
    ¬ ∀ sv su : ℕ, analyzeMetrics ⟨0, 0, 0, true⟩ = some sv →
      analyzeMetrics ⟨0, 0, 0, false⟩ = some su → sv ≤ su := by
  intro hcl
  have h := hcl 5 0 rfl rfl
  omega

/-- Claim C4 (amended): the verified metrics sub-score is the constant
5, and it is at most the unverified sub-score for the same metadata
whenever the unverified analysis flags anything at all (sub-score
nonzero); when no anomaly triggers the unverified score is 0 < 5. -/
theorem C4_verified_metrics_le_unverified (followers following posts_count s : ℕ)
    (h : analyzeMetrics ⟨followers, following, posts_count, false⟩ = some s)
    (hs : s ≠ 0) :
    analyzeMetrics ⟨followers, following, posts_count, true⟩ = some 5 ∧ 5 ≤ s := by
  refine ⟨rfl, ?_⟩
  have h5 := analyzeMetrics_mul5 h
  omega

/-- Witness for the amended C4 at followers 0, following 1: the
unverified sub-score is 40 (suspicious ratio), above the verified 5. -/
theorem C4_witness :
    analyzeMetrics ⟨0, 1, 0, true⟩ = some 5 ∧ 5 ≤ 40 :=
  C4_verified_metrics_le_unverified 0 1 0 40
    (by norm_num [analyzeMetrics, metricsRatioScore?, div?, min_def]) (by norm_num)

end Bombardier.BotDetector

namespace Bombardier.BotDetector

open Bombardier

/-- The Scenario D profile: empty bio, metadata `{followers: 10,
following: 5000}`, no posts (and no username key). -/
def scenarioDProfile : Profile := ⟨[], [], some ⟨10, 5000, 0, false⟩, []⟩

/-- The metrics sub-score of Scenario D: ratio 10/5000 < 0.01 flags the
suspicious follower ratio, 40 points. -/
theorem analyzeMetrics_scenarioD : analyzeMetrics ⟨10, 5000, 0, false⟩ = some 40 := by
  norm_num [analyzeMetrics, metricsRatioScore?, div?, min_def]

/-- The full bot analysis of Scenario D: weighted score 35.5, not a
bot, confidence 0.65. -/
theorem analyze_scenarioD : analyze scenarioDProfile = some ⟨35.5, false, 0.65⟩ := by
  have hu : analyzeUsername ([] : List Char) = some 50 := rfl
  have hb : analyzeBio ([] : List Char) = 30 := rfl
  have hc : analyzeContent ([] : List Post) = some 30 := rfl
  have ht : analyzeTemporal ([] : List Post) = some 30 := rfl
  have e1 : pyRound ((71 : ℚ)/2) 1 = (71 : ℚ)/2 :=
    pyRound_eq_self (show ((71 : ℚ)/2) * 10 ^ 1 = ((355 : ℤ) : ℚ) by norm_num)
  have e2 : pyRound ((13 : ℚ)/20) 2 = (13 : ℚ)/20 :=
    pyRound_eq_self (show ((13 : ℚ)/20) * 10 ^ 2 = ((65 : ℤ) : ℚ) by norm_num)
  simp only [analyze, scenarioDProfile, Option.getD_some, hu, analyzeMetrics_scenarioD,
    hb, hc, ht, Option.bind_eq_bind, Option.some_bind, Option.pure_def, Option.some.injEq,
    BotResult.mk.injEq, calculateConfidence]
  norm_num [hb, e1, e2, min_def]

end Bombardier.BotDetector

namespace Bombardier.ProfileScorer

open Bombardier Bombardier.BotDetector

/-- The `ProfileScorer.score` input assembled from Scenario D: the bot
score 35.5 computed by `analyze_scenarioD`, the same metadata, and no
interests or sentiment. -/
def scenarioDInput : ScoreInput := ⟨some (35.5 : ℚ), some ⟨10, 5000, 0, false⟩, [], [], none⟩

/-- The quality score of Scenario D: overall 43.1, tier C. -/
theorem score_scenarioD :
    score scenarioDInput = ⟨43.1, 64.5, 25, 30, 50, "consider", "C"⟩ := by
  have heng : calculateEngagementScore ⟨10, 5000, 0, false⟩ = 25 := by
    norm_num [calculateEngagementScore, div?, min_def, max_def]
  have hrel : calculateRelevanceScore [] [] = 30 := by
    norm_num [calculateRelevanceScore]
  have hacc : calculateAccessibilityScore ⟨10, 5000, 0, false⟩ 0 = 50 := by
    norm_num [calculateAccessibilityScore, min_def, max_def]
  have e1 : pyRound ((431 : ℚ)/10) 1 = (431 : ℚ)/10 :=
    pyRound_eq_self (show ((431 : ℚ)/10) * 10 ^ 1 = ((431 : ℤ) : ℚ) by norm_num)
  have e2 : pyRound ((129 : ℚ)/2) 1 = (129 : ℚ)/2 :=
    pyRound_eq_self (show ((129 : ℚ)/2) * 10 ^ 1 = ((645 : ℤ) : ℚ) by norm_num)
  have e3 : pyRound ((25 : ℚ)) 1 = (25 : ℚ) :=
    pyRound_eq_self (show ((25 : ℚ)) * 10 ^ 1 = ((250 : ℤ) : ℚ) by norm_num)
  have e4 : pyRound ((30 : ℚ)) 1 = (30 : ℚ) :=
    pyRound_eq_self (show ((30 : ℚ)) * 10 ^ 1 = ((300 : ℤ) : ℚ) by norm_num)
  have e5 : pyRound ((50 : ℚ)) 1 = (50 : ℚ) :=
    pyRound_eq_self (show ((50 : ℚ)) * 10 ^ 1 = ((500 : ℤ) : ℚ) by norm_num)
  simp only [score, scenarioDInput, Option.getD_some, Option.getD_none, heng, hrel, hacc,
    getTier, QualityScore.mk.injEq]
  norm_num [e1, e2, e3, e4, e5, max_def]

/-- Claim C2 is false as stated: for Scenario D the bot score is 35.5
and `ProfileScorer.score` returns overall 43.1, which exceeds the
claimed bound 40 (the tier C part does hold). -/
theorem C2_counterexample :
    (BotDetector.analyze scenarioDProfile).map BotResult.score = some 35.5 ∧
      (score scenarioDInput).overall = 43.1 ∧
      ¬ (score scenarioDInput).overall ≤ 40 := by
  rw [analyze_scenarioD, score_scenarioD]
  norm_num

/-- Claim C2 (amended): for the Scenario D profile, with its bot score
35.5 computed by `BotDetector.analyze` from the same fields, the
overall quality score is at most 45 (it is 43.1) and the tier is in
`{C, D}` (it is C). -/
theorem C2_scenarioD_amended :
    (BotDetector.analyze scenarioDProfile).map BotResult.score = some 35.5 ∧
      (score scenarioDInput).overall ≤ 45 ∧
      ((score scenarioDInput).tier = "C" ∨ (score scenarioDInput).tier = "D") := by
  rw [analyze_scenarioD, score_scenarioD]
  norm_num

end Bombardier.ProfileScorer

namespace Bombardier.SentimentAnalyzer

open Bombardier

/-- The clamp of `SentimentAnalyzer._calculate_confidence` keeps every
confidence in `[0.1, 1]`. -/
theorem calculateConfidence_mem (t : List Char) (v : List (ℚ × ℚ)) :
    (1/10 : ℚ) ≤ calculateConfidence t v ∧ calculateConfidence t v ≤ 1 := by
  unfold calculateConfidence
  simp only []
  constructor
  · exact le_min (le_trans (by norm_num) (le_max_right _ _)) (by norm_num)
  · exact min_le_right _ _

/-- Claim C5 is false as stated for the empty string: the blank-input
early return reports confidence 0, below the claimed lower bound
0.1. -/
theorem C5_counterexample :
    (analyze []).confidence = 0 ∧ ¬ (0.1 : ℚ) ≤ (analyze []).confidence := by
  have h : (analyze []).confidence = 0 := rfl
  rw [h]
  norm_num

/-- Claim C5 (amended): for every input text with at least one
non-whitespace character, the confidence returned by
`SentimentAnalyzer.analyze` lies in `[0.1, 1.0]`; blank input instead
returns confidence 0. -/
theorem C5_confidence_in_bounds (text : List Char)
    (h : (pyStrip text).isEmpty = false) :
    (0.1 : ℚ) ≤ (analyze text).confidence ∧ (analyze text).confidence ≤ 1 := by
  unfold analyze
  rw [if_neg (by rw [h]; exact Bool.false_ne_true)]
  simp only []
  set V := ([(lexiconAnalysis (pyStrip text), (0.5 : ℚ)),
    (emojiAnalysis (pyStrip text), 0.25),
    (patternAnalysis (pyStrip text), 0.25)]).filterMap
      (fun sw => sw.1.map fun v => (v, sw.2)) with hV
  obtain ⟨h1, h2⟩ := calculateConfidence_mem (pyStrip text) V
  have hb1 : ((100 : ℤ) : ℚ) ≤ calculateConfidence (pyStrip text) V * 10 ^ 3 := by
    push_cast
    norm_num
    linarith
  have hb2 : calculateConfidence (pyStrip text) V * 10 ^ 3 ≤ ((1000 : ℤ) : ℚ) := by
    push_cast
    norm_num
    linarith
  obtain ⟨hl, hu⟩ := pyRound_bounds hb1 hb2
  norm_num at hl hu
  exact ⟨by linarith, by linarith⟩

/-- Witness for the amended C5 on the text `hello` (confidence 0.5). -/
theorem C5_witness :
    (0.1 : ℚ) ≤ (analyze "hello".toList).confidence ∧
      (analyze "hello".toList).confidence ≤ 1 :=
  C5_confidence_in_bounds _ (by decide)

end Bombardier.SentimentAnalyzer

namespace Bombardier.SentimentAnalyzer

open Bombardier

/-- The text of the C1 failing input. -/
def inputC1 : List Char := "absolutely amazing".toList

/-- The lexicon signal on the C1 input: the single matched token
`amazing` (0.9) is intensified by the preceding `absolutely` (×1.8) and
the normalizer `max(1, 2/5)` is 1, so the signal is 1.62, outside
`[-1, 1]`. -/
theorem lexiconAnalysis_inputC1 : lexiconAnalysis inputC1 = some 1.62 := by
  have hws : splitWords (toLowerL inputC1) = ["absolutely".toList, "amazing".toList] := by
    decide
  have h1 : lookupTable POSITIVE_WORDS "absolutely".toList = none := rfl
  have h2 : lookupTable NEGATIVE_WORDS "absolutely".toList = none := rfl
  have h3 : lookupTable INTENSIFIERS "absolutely".toList = some 1.8 := rfl
  have h4 : lookupTable POSITIVE_WORDS "amazing".toList = some 0.9 := rfl
  have h5 : (NEGATORS.any fun ng => hasSub ng "absolutely".toList) = false := by decide
  unfold lexiconAnalysis
  rw [hws]
  simp only [lexScores, h1, h2, h3, h4, h5, List.isEmpty_cons, Option.getD_some,
    Bool.false_eq_true, if_false, List.nil_append, List.cons_append, List.isEmpty_nil]
  norm_num [max_def]

/-- The emoji signal abstains on the C1 input (no emoji). -/
theorem emojiAnalysis_inputC1 : emojiAnalysis inputC1 = none := rfl

/-- The pattern signal abstains on the C1 input (no indicator). -/
theorem patternAnalysis_inputC1 : patternAnalysis inputC1 = none := rfl

/-- The full sentiment result on the C1 input: overall 1.62, outside
the documented `[-1, 1]` range. -/
theorem analyze_inputC1 :
    analyze inputC1 = ⟨1.62, 0.5, "positive", 1.62, 0, 0⟩ := by
  have hstrip : pyStrip inputC1 = inputC1 := by decide
  have e1 : pyRound ((81 : ℚ)/50) 3 = (81 : ℚ)/50 :=
    pyRound_eq_self (show ((81 : ℚ)/50) * 10 ^ 3 = ((1620 : ℤ) : ℚ) by norm_num)
  have e2 : pyRound ((1 : ℚ)/2) 3 = (1 : ℚ)/2 :=
    pyRound_eq_self (show ((1 : ℚ)/2) * 10 ^ 3 = ((500 : ℤ) : ℚ) by norm_num)
  have hwc : (wsSplit inputC1).length = 2 := by decide
  unfold analyze
  rw [hstrip]
  rw [if_neg (by decide)]
  simp only [lexiconAnalysis_inputC1, emojiAnalysis_inputC1, patternAnalysis_inputC1,
    List.filterMap_cons, Option.map_some', Option.map_none', List.filterMap_nil,
    List.isEmpty_cons, Bool.false_eq_true, if_false, List.map_cons, List.map_nil,
    List.sum_cons, List.sum_nil, calculateConfidence, hwc, SentimentResult.mk.injEq]
  norm_num [e1, e2, min_def, max_def]

/-- Claim C1 is contradicted by the code at the input
`absolutely amazing`: `SentimentAnalyzer.analyze` returns overall 1.62,
outside the `[-1, 1]` range promised by its own docstring (the
normalizer `max(matchedCount, totalWordCount/5)` does not compensate
for intensity multipliers above 1). -/
theorem C1_overall_out_of_bounds :
    (analyze inputC1).overall = 1.62 ∧ 1 < (analyze inputC1).overall := by
  rw [analyze_inputC1]
  norm_num

end Bombardier.SentimentAnalyzer

namespace Bombardier

/-- A substring of `b` is a substring of any extension `b ++ q`. -/
theorem hasSub_append {pat b q : List Char} (h : hasSub pat b = true) :
    hasSub pat (b ++ q) = true := by
  unfold hasSub at h ⊢
  rw [List.any_eq_true] at h ⊢
  obtain ⟨i, hi, hp⟩ := h
  refine ⟨i, ?_, ?_⟩
  · rw [List.mem_range] at hi ⊢
    rw [List.length_append]
    omega
  · rw [List.isPrefixOf_iff_prefix] at hp ⊢
    rw [List.drop_append_eq_append_drop]
    exact hp.trans (List.prefix_append _ _)

/-- A string is a substring of anything it is appended to. -/
theorem hasSub_suffix (pat x : List Char) : hasSub pat (x ++ pat) = true := by
  unfold hasSub
  rw [List.any_eq_true]
  refine ⟨x.length, ?_, ?_⟩
  · rw [List.mem_range, List.length_append]
    omega
  · rw [List.drop_left, List.isPrefixOf_iff_prefix]

/-- Flipping one list member from unmatched to matched strictly
increases a monotone `countP`. -/
theorem countP_succ_le {α : Type} {l : List α} {f g : α → Bool}
    (hmono : ∀ x ∈ l, g x = true → f x = true) {a : α} (ha : a ∈ l)
    (hga : g a = false) (hfa : f a = true) :
    List.countP g l + 1 ≤ List.countP f l := by
  induction l with
  | nil => simp at ha
  | cons b l ih =>
    rw [List.countP_cons, List.countP_cons]
    rcases List.mem_cons.mp ha with rfl | hal
    · have hmono' := List.countP_mono_left
        fun x hx hgx => hmono x (List.mem_cons_of_mem _ hx) hgx
      rw [hga, hfa]
      simp only [Bool.false_eq_true, if_false, if_true]
      omega
    · have hle := ih (fun x hx hgx => hmono x (List.mem_cons_of_mem _ hx) hgx) hal
      cases hgb : g b with
      | false =>
        simp only [hgb, Bool.false_eq_true, if_false, Nat.add_zero]
        split <;> omega
      | true =>
        have hfb := hmono b (List.mem_cons_self _ _) hgb
        simp only [hgb, hfb, if_true]
        omega

end Bombardier

namespace Bombardier.BotDetector

open Bombardier

/-- The `https?://` occurrence count never decreases when the string is
extended on the right. -/
theorem urlCount_le_append (b q : List Char) : urlCount b ≤ urlCount (b ++ q) := by
  unfold urlCount
  have hsub : List.Sublist (List.range b.length) (List.range (b ++ q).length) :=
    List.range_sublist.mpr (by rw [List.length_append]; omega)
  refine le_trans (List.countP_mono_left ?_) (hsub.countP_le _)
  intro i hi hp
  rw [Bool.or_eq_true] at hp ⊢
  rw [List.isPrefixOf_iff_prefix, List.isPrefixOf_iff_prefix] at hp ⊢
  rw [List.drop_append_eq_append_drop]
  rcases hp with h | h
  · exact Or.inl (h.trans (List.prefix_append _ _))
  · exact Or.inr (h.trans (List.prefix_append _ _))

/-- Every fixed spam phrase is already lowercase. -/
theorem spam_phrase_lower {p : List Char} (hp : p ∈ SPAM_BIO_PHRASES) : toLowerL p = p := by
  have h : SPAM_BIO_PHRASES.all (fun x => toLowerL x == x) = true := by decide
  rw [List.all_eq_true] at h
  simpa using h p hp

/-- Claim C8: appending one not-yet-matched spam phrase to a non-empty
bio never decreases the bio sub-score: the new phrase adds at least 20,
every other indicator is monotone under appending, and the only bonus
that can be lost (short bio, 15) is smaller than the gain; the clamp at
100 preserves the inequality. -/
theorem C8_bio_spam_monotone (b p : List Char) (hb : b ≠ [])
    (hp : p ∈ SPAM_BIO_PHRASES) (hmiss : hasSub p (toLowerL b) = false) :
    analyzeBio b ≤ analyzeBio (b ++ p) := by
  have hpl := spam_phrase_lower hp
  have hbne : b.isEmpty = false := by simpa [List.isEmpty_iff] using hb
  have hbpne : (b ++ p).isEmpty = false := by simp [List.isEmpty_iff, hb]
  have hlow : toLowerL (b ++ p) = toLowerL b ++ p := by
    unfold toLowerL at hpl ⊢
    rw [List.map_append, hpl]
  unfold analyzeBio
  rw [if_neg (show ¬(b.isEmpty = true) by simp [hbne])]
  rw [if_neg (show ¬((b ++ p).isEmpty = true) by simp [hbpne])]
  simp only []
  have hspam : SPAM_BIO_PHRASES.countP (fun ph => hasSub ph (toLowerL b)) + 1
      ≤ SPAM_BIO_PHRASES.countP (fun ph => hasSub ph (toLowerL (b ++ p))) := by
    rw [hlow]
    exact countP_succ_le (fun x _ hgx => hasSub_append hgx) hp hmiss
      (hasSub_suffix p (toLowerL b))
  have hgen : GENERIC_BIOS.countP (fun ph => hasSub ph (toLowerL b))
      ≤ GENERIC_BIOS.countP (fun ph => hasSub ph (toLowerL (b ++ p))) := by
    rw [hlow]
    exact List.countP_mono_left fun x _ hgx => hasSub_append hgx
  have hemoji : b.countP (fun c => decide (127462 < c.toNat))
      ≤ (b ++ p).countP (fun c => decide (127462 < c.toNat)) := by
    rw [List.countP_append]
    omega
  have htag : b.count '#' ≤ (b ++ p).count '#' := by
    rw [List.count_append]
    omega
  have hurl : urlCount b ≤ urlCount (b ++ p) := urlCount_le_append b p
  have hminle : ∀ x y : ℕ, x ≤ y → min x 100 ≤ min y 100 := by
    intro x y h
    rw [Nat.min_def, Nat.min_def]
    split <;> split <;> omega
  apply hminle
  split_ifs <;> omega

/-- Witness for C8: bio `hello` (score 15), phrase `f4f`; the extended
bio `hellof4f` scores 35. -/
theorem C8_witness :
    analyzeBio "hello".toList ≤ analyzeBio ("hello".toList ++ "f4f".toList) :=
  C8_bio_spam_monotone "hello".toList "f4f".toList (by decide) (by decide) (by decide)

end Bombardier.BotDetector

namespace Bombardier.BotDetector

open Bombardier

/-- A fully empty profile snapshot. -/
def emptyProfile : Profile := ⟨[], [], none, []⟩

/-- The bot analysis of the empty profile: weighted score 25.5,
confidence 0.5. -/
theorem analyze_emptyProfile : analyze emptyProfile = some ⟨25.5, false, 0.5⟩ := by
  have hu : analyzeUsername ([] : List Char) = some 50 := rfl
  have hb : analyzeBio ([] : List Char) = 30 := rfl
  have hm : analyzeMetrics ⟨0, 0, 0, false⟩ = some 0 := rfl
  have hc : analyzeContent ([] : List Post) = some 30 := rfl
  have ht : analyzeTemporal ([] : List Post) = some 30 := rfl
  have e1 : pyRound ((51 : ℚ)/2) 1 = (51 : ℚ)/2 :=
    pyRound_eq_self (show ((51 : ℚ)/2) * 10 ^ 1 = ((255 : ℤ) : ℚ) by norm_num)
  have e2 : pyRound ((1 : ℚ)/2) 2 = (1 : ℚ)/2 :=
    pyRound_eq_self (show ((1 : ℚ)/2) * 10 ^ 2 = ((50 : ℤ) : ℚ) by norm_num)
  simp only [analyze, emptyProfile, Option.getD_none, hu, hb, hm, hc, ht,
    Option.bind_eq_bind, Option.some_bind, Option.pure_def, Option.some.injEq,
    BotResult.mk.injEq, calculateConfidence]
  norm_num [hb, e1, e2, min_def]

/-- Witness for C3 at the empty profile: score 25.5, `is_bot = false`,
and the equivalence holds. -/
theorem C3_witness :
    analyze emptyProfile = some ⟨25.5, false, 0.5⟩ ∧
      ((⟨25.5, false, 0.5⟩ : BotResult).is_bot = true ↔
        50 < (⟨25.5, false, 0.5⟩ : BotResult).score) :=
  ⟨analyze_emptyProfile,
    C3_is_bot_iff_score_gt_50 emptyProfile ⟨25.5, false, 0.5⟩ analyze_emptyProfile⟩

/-- Witness for C10 at the empty profile: its confidence 0.5 lies in
`[0.5, 0.95]`. -/
theorem C10_witness :
    (0.5 : ℚ) ≤ (⟨25.5, false, 0.5⟩ : BotResult).confidence ∧
      (⟨25.5, false, 0.5⟩ : BotResult).confidence ≤ 0.95 :=
  C10_bot_confidence_in_bounds emptyProfile ⟨25.5, false, 0.5⟩ analyze_emptyProfile

end Bombardier.BotDetector

namespace Bombardier

/-- Inserting an element whose key equals `q` into a list sorted by
descending key places it before the `q`-keyed block: the `q`-filter
gains exactly that element, at the front. Elements placed before it
have strictly larger keys. -/
theorem filter_orderedInsert_of_eq {α : Type u_1} (key : α → ℚ) (q : ℚ) (a : α) (l : List α)
    (ha : key a = q) :
    (List.orderedInsert (fun x y => key y ≤ key x) a l).filter (fun x => decide (key x = q))
      = a :: l.filter (fun x => decide (key x = q)) := by
  induction l with
  | nil => simp [List.orderedInsert_nil, List.filter_cons, ha]
  | cons b l ih =>
    rw [List.orderedInsert]
    split
    · simp [List.filter_cons, ha]
    · rename_i hr
      have hbq : ¬ (key b = q) := by
        intro h
        exact hr (by rw [h, ha])
      rw [List.filter_cons, List.filter_cons]
      simp only [hbq, decide_eq_true_eq, if_false, decide_eq_false hbq]
      exact ih

/-- Inserting an element whose key differs from `q` does not change the
`q`-filter. -/
theorem filter_orderedInsert_of_ne {α : Type u_1} (key : α → ℚ) (q : ℚ) (a : α) (l : List α)
    (ha : ¬ key a = q) :
    (List.orderedInsert (fun x y => key y ≤ key x) a l).filter (fun x => decide (key x = q))
      = l.filter (fun x => decide (key x = q)) := by
  induction l with
  | nil => simp [List.orderedInsert_nil, List.filter_cons, ha]
  | cons b l ih =>
    rw [List.orderedInsert]
    split
    · rw [List.filter_cons, List.filter_cons]
      simp [decide_eq_false ha]
    · rw [List.filter_cons, List.filter_cons]
      by_cases hb : key b = q <;> simp [hb, ih]

/-- Stability of the descending insertion sort: for every key value
`q`, the sublist of `q`-keyed elements is exactly preserved (same
elements, same relative order). -/
theorem filter_insertionSort (key : α → ℚ) (q : ℚ) (l : List α) :
    (List.insertionSort (fun x y => key y ≤ key x) l).filter (fun x => decide (key x = q))
      = l.filter (fun x => decide (key x = q)) := by
  induction l with
  | nil => rfl
  | cons a l ih =>
    rw [List.insertionSort]
    by_cases ha : key a = q
    · rw [filter_orderedInsert_of_eq _ _ _ _ ha, ih, List.filter_cons]
      simp [ha]
    · rw [filter_orderedInsert_of_ne _ _ _ _ ha, ih, List.filter_cons]
      simp [ha]

end Bombardier

namespace Bombardier.ProfileScorer

open Bombardier Bombardier.BotDetector

/-- Claim C6: `rank_profiles` returns a permutation of its input with
each profile extended by its quality score, the (rounded) `overall`
values are non-increasing along the output, and the sort is stable:
for every score value `q`, the subsequence of entries scoring `q`
equals the corresponding subsequence of the input, so ties keep their
input-relative order. -/
theorem C6_rank_profiles_spec (profiles : List ScoreInput) :
    ((rankProfiles profiles).Perm (profiles.map fun p => (p, score p))) ∧
      ((rankProfiles profiles).Pairwise fun x y => y.2.overall ≤ x.2.overall) ∧
      (∀ q : ℚ, (rankProfiles profiles).filter (fun x => decide (x.2.overall = q))
        = (profiles.map fun p => (p, score p)).filter fun x => decide (x.2.overall = q)) := by
  haveI hto : IsTotal (ScoreInput × QualityScore)
      (fun x y => y.2.overall ≤ x.2.overall) :=
    ⟨fun x y => le_total y.2.overall x.2.overall⟩
  haveI htr : IsTrans (ScoreInput × QualityScore)
      (fun x y => y.2.overall ≤ x.2.overall) :=
    ⟨fun _ _ _ hab hbc => le_trans hbc hab⟩
  refine ⟨List.perm_insertionSort _ _, ?_, ?_⟩
  · exact List.sorted_insertionSort _ _
  · intro q
    exact filter_insertionSort (fun x : ScoreInput × QualityScore => x.2.overall) q _

end Bombardier.ProfileScorer

namespace Bombardier

/-- In a list without duplicates, a member is counted exactly once. -/
theorem count_one_of_nodup_mem {α : Type} [BEq α] [LawfulBEq α] {l : List α} {a : α}
    (d : l.Nodup) (h : a ∈ l) : l.count a = 1 := by
  induction l with
  | nil => simp at h
  | cons b l ih =>
    rw [List.count_cons]
    rcases List.mem_cons.mp h with rfl | hm
    · have hz : l.count a = 0 := List.count_eq_zero.mpr (List.nodup_cons.mp d).1
      simp [hz]
    · have hne : ¬ (b = a) := by
        rintro rfl
        exact (List.nodup_cons.mp d).1 hm
      rw [ih (List.nodup_cons.mp d).2 hm]
      simp [beq_iff_eq, hne]

end Bombardier

namespace Bombardier.InterestExtractor

open Bombardier

/-- The `[category]` marker construction is injective. -/
theorem marker_inj {c d : List Char} (h : '[' :: (c ++ [']']) = '[' :: (d ++ [']'])) :
    c = d := by
  injection h with _ h2
  exact List.append_cancel_right h2

/-- Claim C7: `find_common_interests` returns, as a multiset, exactly
the case-insensitive exact matches of the two lists (each once) plus
one synthetic `[category]` marker per non-`general` category shared by
the two lists: element counts in the output are characterized purely in
terms of lowercase membership and shared categories. -/
theorem C7_findCommonInterests_count (a b : List (List Char)) (s : List Char) :
    (findCommonInterests a b).count s =
      (if s ∈ a.map toLowerL ∧ s ∈ b.map toLowerL then 1 else 0) +
      (if ∃ c ∈ a.map getCategory, c ∈ b.map getCategory ∧
          ¬ c = "general".toList ∧ s = '[' :: (c ++ [']']) then 1 else 0) := by
  unfold findCommonInterests
  rw [List.count_append]
  have hbeq : ∀ (x : List Char) (l : List (List Char)), l.contains x = true ↔ x ∈ l := by
    intro x l
    simp
  congr 1
  · -- exact-match part
    by_cases hmem : s ∈ a.map toLowerL ∧ s ∈ b.map toLowerL
    · rw [if_pos hmem]
      refine count_one_of_nodup_mem ((List.nodup_dedup _).filter _) ?_
      rw [List.mem_filter, List.mem_dedup]
      exact ⟨hmem.1, (hbeq _ _).mpr (List.mem_dedup.mpr hmem.2)⟩
    · rw [if_neg hmem]
      refine List.count_eq_zero.mpr ?_
      rw [List.mem_filter, List.mem_dedup]
      intro ⟨h1, h2⟩
      exact hmem ⟨h1, List.mem_dedup.mp ((hbeq _ _).mp h2)⟩
  · -- marker part
    set L := ((a.map getCategory).dedup.filter fun c =>
      (b.map getCategory).dedup.contains c && !(c == "general".toList)) with hL
    have hnodL : L.Nodup := (List.nodup_dedup _).filter _
    have hmemL : ∀ c, c ∈ L ↔ c ∈ a.map getCategory ∧ c ∈ b.map getCategory ∧
        ¬ c = "general".toList := by
      intro c
      rw [hL, List.mem_filter, List.mem_dedup, Bool.and_eq_true]
      constructor
      · rintro ⟨h1, h2, h3⟩
        refine ⟨h1, List.mem_dedup.mp ((hbeq _ _).mp h2), ?_⟩
        simpa using h3
      · rintro ⟨h1, h2, h3⟩
        refine ⟨h1, ⟨(hbeq _ _).mpr (List.mem_dedup.mpr h2), ?_⟩⟩
        simpa using h3
    by_cases hs : ∃ c ∈ a.map getCategory, c ∈ b.map getCategory ∧
        ¬ c = "general".toList ∧ s = '[' :: (c ++ [']'])
    · rw [if_pos hs]
      obtain ⟨c, hc1, hc2, hc3, rfl⟩ := hs
      refine count_one_of_nodup_mem (hnodL.map_on ?_) ?_
      · intro x _ y _ hxy
        exact marker_inj hxy
      · exact List.mem_map.mpr ⟨c, (hmemL c).mpr ⟨hc1, hc2, hc3⟩, rfl⟩
    · rw [if_neg hs]
      refine List.count_eq_zero.mpr ?_
      intro hmem
      obtain ⟨c, hcL, hcs⟩ := List.mem_map.mp hmem
      obtain ⟨h1, h2, h3⟩ := (hmemL c).mp hcL
      exact hs ⟨c, h1, h2, h3, hcs.symm⟩

end Bombardier.InterestExtractor
